import Mathlib

/-!
Verification of the Dreamcast asset decoders documented in the Ikaruga asset
viewer repository: PVR pixel-format conversion, Morton (twiddled) index
mapping, twiddled-texture decoding, SMALLVQ codebook sizing, PVM container
entry parsing, NJ bone-record reading and bone-tree traversal, the NJCM chunk
stream interpreter loop, and the texture/material assembly in the viewer
component.  Byte buffers are `List Nat` with each element one byte
(0 ≤ b < 256 for well-formed inputs); multi-byte integers are little-endian.
Machine integers are modelled as `Nat`; every operation below stays within
the source's integer width, so no truncation is needed.
-/

/-- Convert ARGB1555 to RGBA8888, from the C source `argb1555_to_rgba8888`:
1-bit alpha mapped to 0x00/0xFF, 5-bit channels shifted left 3 with the low
bits refilled from the top bits (`v |= v >> 5`). -/
def argb1555_to_rgba8888 (input : Nat) : Nat × Nat × Nat × Nat :=
  let a := if input &&& 0x8000 ≠ 0 then 0xFF else 0x00
  let r := ((input >>> 10) &&& 0x1F) <<< 3
  let g := ((input >>> 5) &&& 0x1F) <<< 3
  let b := (input &&& 0x1F) <<< 3
  let r := r ||| (r >>> 5)
  let g := g ||| (g >>> 5)
  let b := b ||| (b >>> 5)
  (r, g, b, a)

/-- Convert RGB565 to RGBA8888, from the C source `rgb565_to_rgba8888`:
5-bit R/B refilled via `>> 5`, 6-bit G via `>> 6`, alpha forced to 0xFF. -/
def rgb565_to_rgba8888 (input : Nat) : Nat × Nat × Nat × Nat :=
  let r := ((input >>> 11) &&& 0x1F) <<< 3
  let g := ((input >>> 5) &&& 0x3F) <<< 2
  let b := (input &&& 0x1F) <<< 3
  let r := r ||| (r >>> 5)
  let g := g ||| (g >>> 6)
  let b := b ||| (b >>> 5)
  (r, g, b, 0xFF)

/-- Convert ARGB4444 to RGBA8888, from the C source `argb4444_to_rgba8888`:
4-bit channels shifted left 4 and refilled via `>> 4`, including alpha. -/
def argb4444_to_rgba8888 (input : Nat) : Nat × Nat × Nat × Nat :=
  let a := ((input >>> 12) &&& 0xF) <<< 4
  let r := ((input >>> 8) &&& 0xF) <<< 4
  let g := ((input >>> 4) &&& 0xF) <<< 4
  let b := (input &&& 0xF) <<< 4
  let a := a ||| (a >>> 4)
  let r := r ||| (r >>> 4)
  let g := g ||| (g >>> 4)
  let b := b ||| (b >>> 4)
  (r, g, b, a)

/-- SMALLVQ codebook entry count as a function of texture dimensions, from the
documented policy table: 16×16 or smaller uses 16 entries, 32×32 uses 32,
64×64 uses 128, and anything larger uses 256. -/
def smallvq_codebook_size (width height : Nat) : Nat :=
  if width ≤ 16 ∧ height ≤ 16 then 16
  else if width ≤ 32 ∧ height ≤ 32 then 32
  else if width ≤ 64 ∧ height ≤ 64 then 128
  else 256

/-- VQ codebook entry count: non-small VQ always has a 256-entry codebook
(the documented VQ structure stores the size 256 implicitly); SMALLVQ
variants use the dimension-dependent table. -/
def vq_codebook_size (small : Bool) (width height : Nat) : Nat :=
  if small then smallvq_codebook_size width height else 256

/-- Linear-to-Morton index conversion, from the C source `toMorton`: for each
of the 16 bit positions i, bit i of x is placed at even position 2i and bit i
of y at odd position 2i+1.  The C accumulator is a uint32 and every
intermediate value fits in 32 bits, so plain Nat arithmetic is exact. -/
def toMorton (x y : Nat) : Nat :=
  (List.range 16).foldl
    (fun morton i =>
      morton ||| (((x &&& (1 <<< i)) <<< i) ||| ((y &&& (1 <<< i)) <<< (i + 1)))) 0

/-- Twiddled-coordinate conversion, from the C source `untwiddle`, whose body
is identical to `toMorton`. -/
def untwiddle (x y : Nat) : Nat :=
  (List.range 16).foldl
    (fun morton i =>
      morton ||| (((x &&& (1 <<< i)) <<< i) ||| ((y &&& (1 <<< i)) <<< (i + 1)))) 0

/-- Modelled from the spec: `from_morton` is not present in the repository
source; the spec defines it as the exact inverse of `to_morton`.  This helper
collects bits 0, 2, 4, ... of m into consecutive bits of the result, for
`f` bit positions. -/
def extractEvenBits : Nat → Nat → Nat
  | 0, _ => 0
  | f + 1, m => m % 2 + 2 * extractEvenBits f (m / 4)

/-- Modelled from the spec: `from_morton` recovers x from the even bit
positions and y from the odd bit positions of a morton index (16 bits each). -/
def from_morton (m : Nat) : Nat × Nat :=
  (extractEvenBits 16 m, extractEvenBits 16 (m / 2))

/-- Read one byte from a buffer (bounds-checked). -/
def readU8 (buf : List Nat) (pos : Nat) : Option Nat :=
  buf.get? pos

/-- Read a little-endian 16-bit value (bounds-checked). -/
def readU16le (buf : List Nat) (pos : Nat) : Option Nat :=
  match buf.get? pos, buf.get? (pos + 1) with
  | some a, some b => some (a + b * 256)
  | _, _ => none

/-- Read a little-endian 32-bit value (bounds-checked). -/
def readU32le (buf : List Nat) (pos : Nat) : Option Nat :=
  match buf.get? pos, buf.get? (pos + 1), buf.get? (pos + 2), buf.get? (pos + 3) with
  | some a, some b, some c, some d =>
      some (a + b * 256 + c * 65536 + d * 16777216)
  | _, _, _, _ => none

/-- Read a run of `n` raw bytes (bounds-checked). -/
def readBytes (buf : List Nat) (pos n : Nat) : Option (List Nat) :=
  if pos + n ≤ buf.length then some ((buf.drop pos).take n) else none

/-- One PVM container texture entry, mirroring the dictionary built by the
Python `parse_pvm_header` loop: index always present, the remaining fields
present iff the corresponding per-file flag bit is set. -/
structure PvmTextureEntry where
  index : Nat
  name : Option (List Nat)
  format : Option Nat
  width : Option Nat
  height : Option Nat
  global_index : Option Nat
deriving Repr, DecidableEq

/-- Name field step of the PVM entry parse: 28 raw bytes with NUL bytes
stripped, read iff flag 0x08 is set. -/
def readPvmName (flags : Nat) (buf : List Nat) (pos : Nat) :
    Option (Option (List Nat) × Nat) :=
  if flags &&& 0x08 ≠ 0 then
    match readBytes buf pos 28 with
    | some bs => some (some (bs.filter (fun b => b ≠ 0)), pos + 28)
    | none => none
  else some (none, pos)

/-- Format field step of the PVM entry parse: a 16-bit value whose high byte
is the semantic format code, read iff flag 0x04 is set. -/
def readPvmFormat (flags : Nat) (buf : List Nat) (pos : Nat) :
    Option (Option Nat × Nat) :=
  if flags &&& 0x04 ≠ 0 then
    match readU16le buf pos with
    | some v => some (some (v >>> 8), pos + 2)
    | none => none
  else some (none, pos)

/-- Size field step of the PVM entry parse, read iff flag 0x02 is set:
width is 1 shifted left by the low nibble plus 2, height is 1 shifted left
by the next nibble plus 2. -/
def readPvmSize (flags : Nat) (buf : List Nat) (pos : Nat) :
    Option ((Option Nat × Option Nat) × Nat) :=
  if flags &&& 0x02 ≠ 0 then
    match readU16le buf pos with
    | some s =>
        some ((some (1 <<< ((s &&& 0xF) + 2)), some (1 <<< (((s >>> 4) &&& 0xF) + 2))),
          pos + 2)
    | none => none
  else some ((none, none), pos)

/-- Global-index field step of the PVM entry parse: a 32-bit value, read iff
flag 0x01 is set. -/
def readPvmGlobalIndex (flags : Nat) (buf : List Nat) (pos : Nat) :
    Option (Option Nat × Nat) :=
  if flags &&& 0x01 ≠ 0 then
    match readU32le buf pos with
    | some v => some (some v, pos + 4)
    | none => none
  else some (none, pos)

/-- Parse one PVM texture entry at `pos` under the container's `flags`,
mirroring the per-texture body of the Python `parse_pvm_header` loop.
Returns the entry and the position just past it. -/
def parse_texture_entry (flags : Nat) (buf : List Nat) (pos : Nat) :
    Option (PvmTextureEntry × Nat) := do
  let index ← readU16le buf pos
  let (name, pos1) ← readPvmName flags buf (pos + 2)
  let (format, pos2) ← readPvmFormat flags buf pos1
  let ((width, height), pos3) ← readPvmSize flags buf pos2
  let (gidx, pos4) ← readPvmGlobalIndex flags buf pos3
  pure ({ index := index, name := name, format := format,
          width := width, height := height, global_index := gidx }, pos4)

/-- Pack an RGBA quadruple into one destination word exactly as the C source
writes it: (a << 24) | (r << 16) | (g << 8) | b. -/
def packRGBA (rgba : Nat × Nat × Nat × Nat) : Nat :=
  (rgba.2.2.2 <<< 24) ||| (rgba.1 <<< 16) ||| (rgba.2.1 <<< 8) ||| rgba.2.2.1

/-- Decode a twiddled texture, from the C source `decode_twiddled_texture`:
for each output pixel (x, y) the morton index is computed via untwiddle;
an index below width*height is read from src, converted via argb1555, and
written at the linear position y*width+x; an out-of-range index leaves the
destination untouched (the C `if` has no else branch and no error path).
dst is the caller-supplied destination buffer. -/
def decode_twiddled_texture (src dst : List Nat) (width height : Nat) : List Nat :=
  (List.range height).foldl (fun d y =>
    (List.range width).foldl (fun d x =>
      let morton_idx := untwiddle x y
      if morton_idx < width * height then
        d.set (y * width + x) (packRGBA (argb1555_to_rgba8888 (src.getD morton_idx 0)))
      else d) d) dst

/-- Error outcomes of the modelled bone reader: a read past the end of the
buffer, or exhaustion of the explicit recursion bound. -/
inductive BoneErr where
  | truncated
  | outOfFuel
deriving Repr, DecidableEq

/-- A single 32-bit read as an Except, the shape of reader.readUInt32() in
the source. -/
def readU32 (buf : List Nat) (pos : Nat) : Except BoneErr Nat :=
  match readU32le buf pos with
  | some v => Except.ok v
  | none => Except.error BoneErr.truncated

/-- Raw fields of one bone record in source order: flags, chunk offset,
position, rotation, scale, child offset, sibling offset.  Position, rotation
and scale components are kept as their raw little-endian 32-bit words; the
source copies or suppresses these values wholesale, so their float or angle
interpretation never matters to the properties proved here. -/
structure BoneRec where
  flags : Nat
  chunkOfs : Nat
  position : Nat × Nat × Nat
  rotation : Nat × Nat × Nat
  scale : Nat × Nat × Nat
  childOfs : Nat
  siblingOfs : Nat
deriving Repr, DecidableEq

/-- Read the fixed bone record layout at pos, from the source readBone body:
every field is read unconditionally, one after the other, and the cursor
ends 52 bytes past where it started. -/
def readBoneRecord (buf : List Nat) (pos : Nat) : Except BoneErr (BoneRec × Nat) := do
  let flags ← readU32 buf pos
  let chunkOfs ← readU32 buf (pos + 4)
  let px ← readU32 buf (pos + 8)
  let py ← readU32 buf (pos + 12)
  let pz ← readU32 buf (pos + 16)
  let rx ← readU32 buf (pos + 20)
  let ry ← readU32 buf (pos + 24)
  let rz ← readU32 buf (pos + 28)
  let sx ← readU32 buf (pos + 32)
  let sy ← readU32 buf (pos + 36)
  let sz ← readU32 buf (pos + 40)
  let childOfs ← readU32 buf (pos + 44)
  let siblingOfs ← readU32 buf (pos + 48)
  pure (⟨flags, chunkOfs, (px, py, pz), (rx, ry, rz), (sx, sy, sz), childOfs, siblingOfs⟩,
    pos + 52)

/-- Bit test helper, from the source isBitFlagSet. -/
def isBitFlagSet (value bit : Nat) : Bool :=
  value.testBit bit

/-- The bone constructed by readBone.  A transform field whose suppression
flag bit is set is left at the Three.js Bone constructor default — modelled
as none — rather than written with the value read from the stream. -/
structure NinjaBone where
  position : Option (Nat × Nat × Nat)
  rotation : Option (Nat × Nat × Nat)
  scale : Option (Nat × Nat × Nat)
deriving Repr, DecidableEq

/-- Apply the per-axis suppression flags, from the source readBone: bit 0
suppresses position, bit 1 rotation, bit 2 scale, each independently. -/
def mkBone (r : BoneRec) : NinjaBone :=
  { position := if isBitFlagSet r.flags 0 then none else some r.position
    rotation := if isBitFlagSet r.flags 1 then none else some r.rotation
    scale := if isBitFlagSet r.flags 2 then none else some r.scale }

/-- Bone tree produced by the recursive traversal: the applied bone, the
first-child subtree and the next-sibling subtree. -/
inductive BoneTree where
  | node (bone : NinjaBone) (child : Option BoneTree) (sibling : Option BoneTree) : BoneTree

/-- Recursive bone-tree reading, from the source readBone: read the record;
if childOfs is non-zero seek there and recurse; if siblingOfs is non-zero
seek there and recurse.  The source recurses unconditionally and keeps no
visited-offset set, so the traversal is modelled with an explicit fuel
bound: exhausting every fuel bound means the source recursion never
returns. -/
def readBone (fuel : Nat) (buf : List Nat) (pos : Nat) : Except BoneErr BoneTree :=
  match fuel with
  | 0 => Except.error BoneErr.outOfFuel
  | fuel + 1 => do
      let (r, _) ← readBoneRecord buf pos
      let child ← if r.childOfs ≠ 0 then
          (readBone fuel buf r.childOfs).map some
        else pure none
      let sibling ← if r.siblingOfs ≠ 0 then
          (readBone fuel buf r.siblingOfs).map some
        else pure none
      pure (BoneTree.node (mkBone r) child sibling)

/-- Synthesized malformed model buffer: a bone record at offset 4 whose
child offset field (bytes 48–51) points back to offset 4 itself; every
other field is zero. -/
def cyclicBoneBuf : List Nat :=
  List.replicate 48 0 ++ [4, 0, 0, 0] ++ [0, 0, 0, 0]

/-- Chunk stream interpreter loop, from the source readChunk: each iteration
reads a head byte and then a flag byte, breaks if the head is 0xFF (End),
and otherwise dispatches on the head's range.  The bodies of readStripChunk,
readMaterialChunk, readTinyChunk and readBitsChunk are not part of the
documented source, so their cursor effect is the parameter `consume`; the
vertex range (0x20–0x3F) and the null head (0x00) only log and fall
through.  Returns the cursor position after the loop ends; the do-while is
modelled with fuel. -/
def readChunk (consume : Nat → Nat → Nat → Option Nat) :
    Nat → List Nat → Nat → Option Nat
  | 0, _, _ => none
  | fuel + 1, buf, pos => do
      let head ← readU8 buf pos
      let flag ← readU8 buf (pos + 1)
      if head = 0xFF then
        pure (pos + 2)
      else do
        let pos2 ← if 0x40 ≤ head then consume head flag (pos + 2)
          else if 0x20 ≤ head then some (pos + 2)
          else if 0x10 ≤ head then consume head flag (pos + 2)
          else if 0x08 ≤ head then consume head flag (pos + 2)
          else if 0x01 ≤ head then consume head flag (pos + 2)
          else some (pos + 2)
        readChunk consume fuel buf pos2

/-- Example 52-byte bone record buffer: flags 5 (bits 0 and 2 set, so
position and scale are suppressed while rotation is applied), all other
fields zero. -/
def boneBufEx : List Nat :=
  5 :: List.replicate 51 0

/-- The record read from boneBufEx at offset 0. -/
def boneRecEx : BoneRec :=
  ⟨5, 0, (0, 0, 0), (0, 0, 0), (0, 0, 0), 0, 0⟩

/-- Diffuse color as carried by a parsed NJ material; the viewer only copies
the channel values, so their numeric type is the source's float. -/
structure RGBAColor where
  r : Float
  g : Float
  b : Float
  a : Float

/-- Parsed material options consumed by loadModel: texture id (an Int since
the interpreter's initial state is -1), blending and double-sided flags, and
an optional diffuse color. -/
structure MaterialOpts where
  texId : Int
  blending : Bool
  doubleSide : Bool
  diffuseColor : Option RGBAColor

/-- A loaded texture, identified by its name; the canvas payload behind it
is irrelevant to material construction. -/
structure WebTexture where
  name : String
deriving DecidableEq

/-- Key of the viewer's texture map: numeric index for standalone PVR files,
the texture name string for PVM entries. -/
inductive TexKey where
  | num (n : Nat)
  | str (s : String)
deriving DecidableEq

/-- A Three.js material as far as loadModel configures it: a
MeshPhongMaterial with side, transparency, optional diffuse color and
optional texture map — or the MeshNormalMaterial default that loadModel
pushes when the parsed material list is empty. -/
inductive ThreeMaterial where
  | phong (doubleSide : Bool) (transparent : Bool) (diffuse : Option RGBAColor)
      (map : Option WebTexture)
  | normal

/-- Map.has on the texture map (modelled as an association list). -/
def texMapHas (textureMap : List (TexKey × WebTexture)) (k : TexKey) : Bool :=
  (textureMap.find? (fun e => decide (e.1 = k))).isSome

/-- Map.get on the texture map. -/
def texMapGet (textureMap : List (TexKey × WebTexture)) (k : TexKey) : Option WebTexture :=
  (textureMap.find? (fun e => decide (e.1 = k))).map Prod.snd

/-- Strategy-3 fuzzy key match from applyTextureToMaterial: exact equality,
case-insensitive equality, or case-insensitive equality of the basename
(text after the last slash and before the first dot).  A numeric key never
matches, as in the source's typeof checks. -/
def texKeyMatches (key : TexKey) (textureName : String) : Bool :=
  match key with
  | TexKey.num _ => false
  | TexKey.str s =>
      (s = textureName : Bool) ||
      (s.toLower = textureName.toLower : Bool) ||
      (match (s.splitOn "/").getLast? with
       | some last =>
           match (last.splitOn ".").head? with
           | some base => (base.toLower = textureName.toLower : Bool)
           | none => false
       | none => false)

/-- Texture selection from the source applyTextureToMaterial: strategy 1
(direct texture-name match from the PVM map), then strategy 2 (numeric key
for single PVR files), then strategy 3 (fuzzy name matching); none may
apply.  A negative or out-of-range texId yields an undefined (hence falsy)
texture name in the source, modelled as none. -/
def applyTextureToMaterial (textureNames : List String)
    (textureMap : List (TexKey × WebTexture)) (texId : Int) : Option WebTexture :=
  let lookupName : Option String :=
    if (textureNames.length : Int) > texId ∧ 0 ≤ texId then
      textureNames.get? texId.toNat
    else none
  let s1 : Option WebTexture :=
    match lookupName with
    | some tn =>
        if tn ≠ "" ∧ texMapHas textureMap (TexKey.str tn) then
          texMapGet textureMap (TexKey.str tn)
        else none
    | none => none
  match s1 with
  | some t => some t
  | none =>
    let s2 : Option WebTexture :=
      if 0 ≤ texId ∧ texMapHas textureMap (TexKey.num texId.toNat) then
        texMapGet textureMap (TexKey.num texId.toNat)
      else none
    match s2 with
    | some t => some t
    | none =>
        match lookupName with
        | some tn => (textureMap.find? (fun e => texKeyMatches e.1 tn)).map Prod.snd
        | none => none

/-- Build one MeshPhongMaterial from parsed options, from the loadModel map
body: side from doubleSide, transparent from blending, diffuse color copied
when present, texture map from applyTextureToMaterial. -/
def mkPhongMaterial (opts : MaterialOpts) (map : Option WebTexture) : ThreeMaterial :=
  ThreeMaterial.phong opts.doubleSide opts.blending opts.diffuseColor map

/-- The materials array built by loadModel: one MeshPhongMaterial per parsed
material, and — when that array is empty — a single pushed
MeshNormalMaterial default. -/
def loadModelMaterials (parsedMaterials : List MaterialOpts) (textureNames : List String)
    (textureMap : List (TexKey × WebTexture)) : List ThreeMaterial :=
  let materials := parsedMaterials.map (fun opts =>
    mkPhongMaterial opts (applyTextureToMaterial textureNames textureMap opts.texId))
  if materials.length = 0 then [ThreeMaterial.normal] else materials

/-- The mesh constructed by loadModel, as far as its material list is
concerned (the geometry and skeleton are passed through unchanged). -/
structure NJMesh where
  materials : List ThreeMaterial

/-- Mesh construction step of loadModel. -/
def loadModelMesh (parsedMaterials : List MaterialOpts) (textureNames : List String)
    (textureMap : List (TexKey × WebTexture)) : NJMesh :=
  ⟨loadModelMaterials parsedMaterials textureNames textureMap⟩

/-- Decoded image data as returned by parsePvr: dimensions plus RGBA
payload.  The parsePvr implementation itself is not part of the documented
source, so its outcome is supplied as a parameter below. -/
structure PvrImageData where
  width : Nat
  height : Nat
  data : List Nat

/-- Result of successfully processing one texture: name and dimensions of
the canvas-backed texture produced. -/
structure TexResult where
  textureName : String
  width : Nat
  height : Nat
deriving DecidableEq

/-- processTextureEntry from the viewer component: the entire body sits in a
try block whose catch clause logs and returns null; a null 2d context also
returns null from inside the try.  The parsePvr call's outcome (normal
return or thrown error) is the first parameter. -/
def processTextureEntry (pvrResult : Except String PvrImageData)
    (ctx2d : Option Unit) (entryName : String) : Option TexResult :=
  let tryBlock : Except String (Option TexResult) := do
    let imageData ← pvrResult
    match ctx2d with
    | none => pure none
    | some _ => pure (some ⟨entryName, imageData.width, imageData.height⟩)
  match tryBlock with
  | Except.ok r => r
  | Except.error _ => none

/-- processPvrFile from the viewer component: same try/catch shape as
processTextureEntry, with the texture named from the path's basename and the
caller's index returned as the map key. -/
def processPvrFile (pvrResult : Except String PvrImageData)
    (ctx2d : Option Unit) (texturePath : String) (index : Nat) :
    Option (TexResult × Nat) :=
  let tryBlock : Except String (Option (TexResult × Nat)) := do
    let imageData ← pvrResult
    match ctx2d with
    | none => pure none
    | some _ =>
        pure (some (⟨(texturePath.splitOn "/").getLast?.getD "",
          imageData.width, imageData.height⟩, index))
  match tryBlock with
  | Except.ok r => r
  | Except.error _ => none

/-- Claim C5: the pixel decoders satisfy the three fixed test vectors:
RGB565 0xFFFF decodes to (255,255,255,255); ARGB1555 0x8000 decodes to
(0,0,0,255); ARGB4444 0xF000 decodes to (0,0,0,255). -/
theorem pixel_decoder_test_vectors :
    rgb565_to_rgba8888 0xFFFF = (255, 255, 255, 255) ∧
    argb1555_to_rgba8888 0x8000 = (0, 0, 0, 255) ∧
    argb4444_to_rgba8888 0xF000 = (0, 0, 0, 255) := by
  refine ⟨?_, ?_, ?_⟩ <;> decide

/-- Claim C6: SMALLVQ codebook entry count is determined by the dimensions:
both ≤ 16 gives 16 entries, otherwise both ≤ 32 gives 32, otherwise both
≤ 64 gives 128, otherwise 256; the four square sizes 16/32/64/128 give
16/32/128/256; non-small VQ always uses 256 entries. -/
theorem smallvq_codebook_size_policy :
    (∀ w h, w ≤ 16 → h ≤ 16 → smallvq_codebook_size w h = 16) ∧
    (∀ w h, w ≤ 32 → h ≤ 32 → 16 < max w h → smallvq_codebook_size w h = 32) ∧
    (∀ w h, w ≤ 64 → h ≤ 64 → 32 < max w h → smallvq_codebook_size w h = 128) ∧
    (∀ w h, 64 < max w h → smallvq_codebook_size w h = 256) ∧
    smallvq_codebook_size 16 16 = 16 ∧
    smallvq_codebook_size 32 32 = 32 ∧
    smallvq_codebook_size 64 64 = 128 ∧
    smallvq_codebook_size 128 128 = 256 ∧
    (∀ w h, vq_codebook_size true w h = smallvq_codebook_size w h) ∧
    (∀ w h, vq_codebook_size false w h = 256) := by
  refine ⟨?_, ?_, ?_, ?_, by decide, by decide, by decide, by decide,
    fun w h => rfl, fun w h => rfl⟩
  · intro w h h1 h2
    simp only [smallvq_codebook_size]
    rw [if_pos ⟨h1, h2⟩]
  · intro w h h1 h2 h3
    simp only [smallvq_codebook_size]
    rw [if_neg (by omega), if_pos ⟨h1, h2⟩]
  · intro w h h1 h2 h3
    simp only [smallvq_codebook_size]
    rw [if_neg (by omega), if_neg (by omega), if_pos ⟨h1, h2⟩]
  · intro w h h1
    simp only [smallvq_codebook_size]
    rw [if_neg (by omega), if_neg (by omega), if_neg (by omega)]

/-- Witness for claim C6 at concrete dimensions 20×20 (the 32-entry bucket). -/
theorem smallvq_codebook_size_policy_witness :
    smallvq_codebook_size 20 20 = 32 :=
  smallvq_codebook_size_policy.2.1 20 20 (by decide) (by decide) (by decide)

/-- A 16-bit little-endian read from a byte-valued buffer is below 65536. -/
theorem readU16le_lt {buf : List Nat} {pos s : Nat}
    (hwf : ∀ b ∈ buf, b < 256) (h : readU16le buf pos = some s) : s < 65536 := by
  unfold readU16le at h
  cases h1 : buf.get? pos with
  | none => rw [h1] at h; exact absurd h (by simp)
  | some a =>
      cases h2 : buf.get? (pos + 1) with
      | none => rw [h1, h2] at h; exact absurd h (by simp)
      | some b =>
          rw [h1, h2] at h
          simp only [Option.some.injEq] at h
          have ha : a < 256 := hwf a (List.get?_mem h1)
          have hb : b < 256 := hwf b (List.get?_mem h2)
          omega

/-- Claim C7: whenever the container flags include 0x02 and an entry parses
successfully from a byte-valued buffer, its width and height decode from the
16-bit size field as width = 1 <<< ((size &&& 0xF) + 2) and
height = 1 <<< (((size >>> 4) &&& 0xF) + 2). -/
theorem pvm_size_field_decode (flags : Nat) (buf : List Nat) (pos : Nat)
    (e : PvmTextureEntry) (p : Nat)
    (hwf : ∀ b ∈ buf, b < 256)
    (hflag : flags &&& 0x02 ≠ 0)
    (hp : parse_texture_entry flags buf pos = some (e, p)) :
    ∃ s, s < 65536 ∧
      e.width = some (1 <<< ((s &&& 0xF) + 2)) ∧
      e.height = some (1 <<< (((s >>> 4) &&& 0xF) + 2)) := by
  simp only [parse_texture_entry, Option.bind_eq_bind, Option.bind_eq_some,
    Option.pure_def, Option.some.injEq, Prod.mk.injEq] at hp
  obtain ⟨index, hidx, ⟨name, pos1⟩, hname, ⟨format, pos2⟩, hfmt,
    ⟨⟨width, height⟩, pos3⟩, hsz, ⟨gidx, pos4⟩, hgi, he, hpp⟩ := hp
  rw [readPvmSize, if_pos hflag] at hsz
  cases hu : readU16le buf pos2 with
  | none => rw [hu] at hsz; exact absurd hsz (by simp)
  | some s =>
      rw [hu] at hsz
      simp only [Option.some.injEq, Prod.mk.injEq] at hsz
      obtain ⟨⟨hw, hh⟩, _⟩ := hsz
      refine ⟨s, readU16le_lt hwf hu, ?_, ?_⟩
      · rw [← he]
        exact hw.symm
      · rw [← he]
        exact hh.symm

/-- Witness for claim C7: flags 0x02 with size field 0x34 yields
width 64 and height 32. -/
theorem pvm_size_field_decode_witness :
    (∃ s, s < 65536 ∧
      (some 64 : Option Nat) = some (1 <<< ((s &&& 0xF) + 2)) ∧
      (some 32 : Option Nat) = some (1 <<< (((s >>> 4) &&& 0xF) + 2))) ∧
    parse_texture_entry 2 [0, 0, 0x34, 0] 0 =
      some ({ index := 0, name := none, format := none,
              width := some 64, height := some 32, global_index := none }, 4) := by
  constructor
  · exact pvm_size_field_decode 2 [0, 0, 0x34, 0] 0
      { index := 0, name := none, format := none,
        width := some 64, height := some 32, global_index := none } 4
      (by decide) (by decide) (by rfl)
  · rfl

/-- The test bit of an or-accumulating fold is the or of the test bits. -/
theorem testBit_foldl_or (f : Nat → Nat) (l : List Nat) (a : Nat) (j : Nat) :
    (l.foldl (fun m i => m ||| f i) a).testBit j
      = (a.testBit j || l.any fun i => (f i).testBit j) := by
  induction l generalizing a with
  | nil => simp
  | cons b t ih =>
      simp only [List.foldl_cons, List.any_cons]
      rw [ih, Nat.testBit_lor]
      simp [Bool.or_assoc]

/-- Characterization of the bits of toMorton: bit j is set iff j is an even
position 2i carrying bit i of x, or an odd position 2i+1 carrying bit i of y,
with i < 16. -/
theorem toMorton_testBit_iff (x y j : Nat) :
    (toMorton x y).testBit j = true ↔
      (∃ i, i < 16 ∧ j = 2 * i ∧ x.testBit i = true) ∨
      (∃ i, i < 16 ∧ j = 2 * i + 1 ∧ y.testBit i = true) := by
  unfold toMorton
  rw [testBit_foldl_or]
  simp only [Nat.zero_testBit, Bool.false_or, List.any_eq_true, List.mem_range]
  constructor
  · rintro ⟨i, hi, hbit⟩
    rw [Nat.testBit_lor, Nat.testBit_shiftLeft, Nat.testBit_shiftLeft, Nat.one_shiftLeft,
      Nat.testBit_land, Nat.testBit_land, Nat.testBit_two_pow, Nat.testBit_two_pow] at hbit
    simp only [Bool.or_eq_true, Bool.and_eq_true, decide_eq_true_eq] at hbit
    rcases hbit with ⟨hij, hx, hieq⟩ | ⟨hij, hy, hieq⟩
    · refine Or.inl ⟨i, hi, by omega, ?_⟩
      rwa [show j - i = i by omega] at hx
    · refine Or.inr ⟨i, hi, by omega, ?_⟩
      rwa [show j - (i + 1) = i by omega] at hy
  · rintro (⟨i, hi, hj, hb⟩ | ⟨i, hi, hj, hb⟩) <;>
      refine ⟨i, hi, ?_⟩ <;>
      subst hj <;>
      rw [Nat.testBit_lor, Nat.testBit_shiftLeft, Nat.testBit_shiftLeft, Nat.one_shiftLeft,
        Nat.testBit_land, Nat.testBit_land, Nat.testBit_two_pow, Nat.testBit_two_pow] <;>
      simp only [Bool.or_eq_true, Bool.and_eq_true, decide_eq_true_eq]
    · exact Or.inl ⟨by omega, by rwa [show 2 * i - i = i by omega], by omega⟩
    · exact Or.inr ⟨by omega, by rwa [show 2 * i + 1 - (i + 1) = i by omega], by omega⟩

/-- Bits of extractEvenBits: bit i of the result is bit 2i of the input,
for i below the iteration count. -/
theorem extractEvenBits_testBit (f : Nat) :
    ∀ m i, (extractEvenBits f m).testBit i = (m.testBit (2 * i) && decide (i < f)) := by
  induction f with
  | zero =>
      intro m i
      simp [extractEvenBits]
  | succ f ih =>
      intro m i
      cases i with
      | zero =>
          simp only [extractEvenBits, Nat.testBit_zero]
          have hm : (m % 2 + 2 * extractEvenBits f (m / 4)) % 2 = m % 2 := by omega
          rw [hm]
          simp
      | succ i =>
          simp only [extractEvenBits, Nat.testBit_add_one]
          rw [show (m % 2 + 2 * extractEvenBits f (m / 4)) / 2 = extractEvenBits f (m / 4) by
            omega]
          rw [ih (m / 4) i, show m / 4 = m / 2 / 2 by omega, ← Nat.testBit_add_one,
            ← Nat.testBit_add_one, show 2 * i + 1 + 1 = 2 * (i + 1) by omega]
          congr 1
          exact decide_eq_decide.mpr (by omega)

/-- A 16-bit value has no set bits at or above position 16. -/
theorem testBit_eq_false_of_lt_65536 {x i : Nat} (hx : x < 65536) (hi : 16 ≤ i) :
    x.testBit i = false := by
  apply Nat.testBit_lt_two_pow
  calc x < 65536 := hx
    _ = 2 ^ 16 := by norm_num
    _ ≤ 2 ^ i := Nat.pow_le_pow_right (by norm_num) hi

/-- Claim C2: for every pair of coordinates below 65536, from_morton recovers
exactly (x, y) from toMorton x y — x from the even bit positions and y from
the odd ones — so toMorton is injective on that domain and from_morton is its
exact inverse. -/
theorem from_morton_toMorton (x y : Nat) (hx : x < 65536) (hy : y < 65536) :
    from_morton (toMorton x y) = (x, y) := by
  unfold from_morton
  have hxx : extractEvenBits 16 (toMorton x y) = x := by
    apply Nat.eq_of_testBit_eq
    intro i
    rw [extractEvenBits_testBit]
    by_cases hi : i < 16
    · simp only [hi, decide_True, Bool.and_true]
      rw [Bool.eq_iff_iff]
      constructor
      · intro h
        rcases (toMorton_testBit_iff x y (2 * i)).mp h with ⟨k, _, hjk, hxk⟩ | ⟨k, _, hjk, _⟩
        · rwa [show k = i by omega] at hxk
        · exact absurd hjk (by omega)
      · intro h
        exact (toMorton_testBit_iff x y (2 * i)).mpr (Or.inl ⟨i, hi, rfl, h⟩)
    · simp only [hi, decide_False, Bool.and_false]
      exact (testBit_eq_false_of_lt_65536 hx (by omega)).symm
  have hyy : extractEvenBits 16 (toMorton x y / 2) = y := by
    apply Nat.eq_of_testBit_eq
    intro i
    rw [extractEvenBits_testBit, ← Nat.testBit_add_one]
    by_cases hi : i < 16
    · simp only [hi, decide_True, Bool.and_true]
      rw [Bool.eq_iff_iff]
      constructor
      · intro h
        rcases (toMorton_testBit_iff x y (2 * i + 1)).mp h with ⟨k, _, hjk, _⟩ | ⟨k, _, hjk, hyk⟩
        · exact absurd hjk (by omega)
        · rwa [show k = i by omega] at hyk
      · intro h
        exact (toMorton_testBit_iff x y (2 * i + 1)).mpr (Or.inr ⟨i, hi, rfl, h⟩)
    · simp only [hi, decide_False, Bool.and_false]
      exact (testBit_eq_false_of_lt_65536 hy (by omega)).symm
  rw [hxx, hyy]

/-- Witness for claim C2 at x = 3, y = 5 (toMorton 3 5 = 39). -/
theorem from_morton_toMorton_witness : from_morton (toMorton 3 5) = (3, 5) :=
  from_morton_toMorton 3 5 (by decide) (by decide)

/-- Counterexample to claim C4: decoding a 4×1 twiddled texture, where
pixels (2,0) and (3,0) have morton indices 4 and 5, both ≥ width×height = 4,
completes and returns a partially written image — the destination values 9
are left in place at positions 2 and 3 — rather than failing with
IndexOutOfRange; the decoder has no error outcome at all. -/
theorem decode_twiddled_partial_image :
    untwiddle 2 0 = 4 ∧ untwiddle 3 0 = 5 ∧
    decode_twiddled_texture [0, 0, 0, 0] [9, 9, 9, 9] 4 1 = [0, 0, 9, 9] :=
  ⟨by decide, by decide, by decide⟩

/-- Claim C4 amended: an output coordinate whose morton index is ≥
width×height is silently skipped — the returned buffer keeps the
destination's prior value at that pixel — while in-range pixels are written;
decoding continues and reports no error.  Shown for width 4, height 1,
where pixels 2 and 3 are the out-of-range ones, over every src and dst. -/
theorem decode_twiddled_skips_out_of_range (src dst : List Nat) :
    (decode_twiddled_texture src dst 4 1).get? 2 = dst.get? 2 ∧
    (decode_twiddled_texture src dst 4 1).get? 3 = dst.get? 3 := by
  have e0 : untwiddle 0 0 = 0 := by decide
  have e1 : untwiddle 1 0 = 1 := by decide
  have e2 : untwiddle 2 0 = 4 := by decide
  have e3 : untwiddle 3 0 = 5 := by decide
  rw [decode_twiddled_texture]
  simp only [show List.range 1 = [0] from rfl, show List.range 4 = [0, 1, 2, 3] from rfl,
    List.foldl_cons, List.foldl_nil, e0, e1, e2, e3]
  norm_num

/-- Claim C8: a successful bone-record read always consumes the full fixed
52-byte layout — the cursor ends at pos + 52 regardless of the flag bits —
and each transform field is read from its fixed stream offset
unconditionally, while the suppression bits independently decide only
whether each value is written into the resulting bone. -/
theorem readBoneRecord_layout (buf : List Nat) (pos : Nat) (r : BoneRec) (p : Nat)
    (h : readBoneRecord buf pos = Except.ok (r, p)) :
    p = pos + 52 ∧
    readU32 buf pos = Except.ok r.flags ∧
    readU32 buf (pos + 8) = Except.ok r.position.1 ∧
    readU32 buf (pos + 12) = Except.ok r.position.2.1 ∧
    readU32 buf (pos + 16) = Except.ok r.position.2.2 ∧
    readU32 buf (pos + 20) = Except.ok r.rotation.1 ∧
    readU32 buf (pos + 32) = Except.ok r.scale.1 ∧
    readU32 buf (pos + 44) = Except.ok r.childOfs ∧
    readU32 buf (pos + 48) = Except.ok r.siblingOfs ∧
    (mkBone r).position = (if r.flags.testBit 0 then none else some r.position) ∧
    (mkBone r).rotation = (if r.flags.testBit 1 then none else some r.rotation) ∧
    (mkBone r).scale = (if r.flags.testBit 2 then none else some r.scale) := by
  rw [readBoneRecord] at h
  cases h0 : readU32 buf pos <;> rw [h0] at h <;> try exact Except.noConfusion h
  cases h1 : readU32 buf (pos + 4) <;> rw [h1] at h <;> try exact Except.noConfusion h
  cases h2 : readU32 buf (pos + 8) <;> rw [h2] at h <;> try exact Except.noConfusion h
  cases h3 : readU32 buf (pos + 12) <;> rw [h3] at h <;> try exact Except.noConfusion h
  cases h4 : readU32 buf (pos + 16) <;> rw [h4] at h <;> try exact Except.noConfusion h
  cases h5 : readU32 buf (pos + 20) <;> rw [h5] at h <;> try exact Except.noConfusion h
  cases h6 : readU32 buf (pos + 24) <;> rw [h6] at h <;> try exact Except.noConfusion h
  cases h7 : readU32 buf (pos + 28) <;> rw [h7] at h <;> try exact Except.noConfusion h
  cases h8 : readU32 buf (pos + 32) <;> rw [h8] at h <;> try exact Except.noConfusion h
  cases h9 : readU32 buf (pos + 36) <;> rw [h9] at h <;> try exact Except.noConfusion h
  cases h10 : readU32 buf (pos + 40) <;> rw [h10] at h <;> try exact Except.noConfusion h
  cases h11 : readU32 buf (pos + 44) <;> rw [h11] at h <;> try exact Except.noConfusion h
  cases h12 : readU32 buf (pos + 48) <;> rw [h12] at h <;> try exact Except.noConfusion h
  simp only [bind, Except.bind, pure, Except.pure] at h
  injection h with hpair
  injection hpair with hr hp
  subst hr
  subst hp
  exact ⟨rfl, rfl, rfl, rfl, rfl, rfl, rfl, rfl, rfl, rfl, rfl, rfl⟩

/-- For every fuel bound, reading the bone tree of the synthesized cyclic
buffer (child offset pointing back at the root bone's own offset) exhausts
the bound: the recursion never returns a tree and never reports any other
error. -/
theorem readBone_cyclicAux (n : Nat) :
    readBone n cyclicBoneBuf 4 = Except.error BoneErr.outOfFuel := by
  induction n with
  | zero => rfl
  | succ n ih =>
      have hrec : readBoneRecord cyclicBoneBuf 4 =
          Except.ok (⟨0, 0, (0, 0, 0), (0, 0, 0), (0, 0, 0), 4, 0⟩, 56) := rfl
      rw [readBone, hrec]
      show (if (4 : Nat) ≠ 0 then (readBone n cyclicBoneBuf 4).map some
          else pure none) >>= _ = _
      rw [if_pos (by decide), ih]
      rfl

/-- Counterexample to claim C1: on the synthesized buffer whose child offset
points back to the already-entered root offset, the bone reader does not
terminate with a CyclicReference report — there is no fuel bound under which
it returns anything but fuel exhaustion (the source recursion has no visited
set and loops forever). -/
theorem readBone_cyclic_never_returns :
    ¬ ∃ n, readBone n cyclicBoneBuf 4 ≠ Except.error BoneErr.outOfFuel := by
  rintro ⟨n, hn⟩
  exact hn (readBone_cyclicAux n)

/-- Claim C1 amended: reading the bone tree of a buffer in which a child
offset points back to an already-entered bone offset recurses without
bound — for every recursion bound n the reader exhausts the bound, and in
particular never produces a CyclicReference-style detection, which does not
exist in the source. -/
theorem readBone_cyclic_exhausts_any_fuel (n : Nat) :
    readBone n cyclicBoneBuf 4 = Except.error BoneErr.outOfFuel :=
  readBone_cyclicAux n

/-- Witness for claim C8 on the concrete buffer boneBufEx (flags 5): the
cursor lands at 52, every transform field was read, and position and scale
are suppressed while rotation is applied. -/
theorem readBoneRecord_layout_witness :
    (52 : Nat) = 0 + 52 ∧
    readU32 boneBufEx 0 = Except.ok boneRecEx.flags ∧
    readU32 boneBufEx (0 + 8) = Except.ok boneRecEx.position.1 ∧
    readU32 boneBufEx (0 + 12) = Except.ok boneRecEx.position.2.1 ∧
    readU32 boneBufEx (0 + 16) = Except.ok boneRecEx.position.2.2 ∧
    readU32 boneBufEx (0 + 20) = Except.ok boneRecEx.rotation.1 ∧
    readU32 boneBufEx (0 + 32) = Except.ok boneRecEx.scale.1 ∧
    readU32 boneBufEx (0 + 44) = Except.ok boneRecEx.childOfs ∧
    readU32 boneBufEx (0 + 48) = Except.ok boneRecEx.siblingOfs ∧
    (mkBone boneRecEx).position =
      (if boneRecEx.flags.testBit 0 then none else some boneRecEx.position) ∧
    (mkBone boneRecEx).rotation =
      (if boneRecEx.flags.testBit 1 then none else some boneRecEx.rotation) ∧
    (mkBone boneRecEx).scale =
      (if boneRecEx.flags.testBit 2 then none else some boneRecEx.scale) :=
  readBoneRecord_layout boneBufEx 0 boneRecEx 52 (by rfl)

/-- Claim C3 amended: the chunk interpreter stops exactly at a head byte of
0xFF, but it reads the flag byte together with the head before testing for
the terminator, so the End record consumes two bytes: the cursor ends at
pos + 2 (and a stream ending right after the 0xFF head fails the flag
read). -/
theorem readChunk_end_stops_after_two_bytes (consume : Nat → Nat → Nat → Option Nat)
    (fuel : Nat) (buf : List Nat) (pos flag : Nat)
    (hhead : readU8 buf pos = some 0xFF)
    (hflag : readU8 buf (pos + 1) = some flag) :
    readChunk consume (fuel + 1) buf pos = some (pos + 2) := by
  unfold readChunk
  simp [hhead, hflag]

/-- Witness for claim C3 amended on the stream [0xFF, 0x42]. -/
theorem readChunk_end_stops_after_two_bytes_witness :
    readChunk (fun _ _ p => some p) 1 [0xFF, 0x42] 0 = some 2 :=
  readChunk_end_stops_after_two_bytes (fun _ _ p => some p) 0 [0xFF, 0x42] 0 0x42 rfl rfl

/-- Counterexample to claim C3: on the stream [0xFF, 0x42] the interpreter
finishes with its cursor at 2, not 1 — the flag byte after the terminating
head is consumed — and on the one-byte stream [0xFF] it fails reading the
flag byte instead of stopping cleanly after the head alone. -/
theorem readChunk_end_reads_flag_byte :
    readChunk (fun _ _ p => some p) 1 [0xFF, 0x42] 0 ≠ some 1 ∧
    readChunk (fun _ _ p => some p) 1 [0xFF] 0 = none :=
  ⟨by decide, by decide⟩

/-- Claim C9: the materials array of the mesh built by loadModel is never
empty: its length is the parsed material count, except that an empty parsed
list yields exactly one inserted MeshNormalMaterial default. -/
theorem loadModel_materials_nonempty (pm : List MaterialOpts) (tn : List String)
    (tm : List (TexKey × WebTexture)) :
    0 < (loadModelMesh pm tn tm).materials.length ∧
    (loadModelMesh pm tn tm).materials.length = (if pm.length = 0 then 1 else pm.length) ∧
    loadModelMesh [] tn tm = ⟨[ThreeMaterial.normal]⟩ := by
  refine ⟨?_, ?_, rfl⟩ <;>
  · simp only [loadModelMesh, loadModelMaterials, List.length_map]
    cases pm with
    | nil => simp
    | cons a t => simp

/-- Claim C10: processTextureEntry and processPvrFile surface no exception:
a parsePvr error is caught and yields null (none), a missing 2d context
yields null from inside the try block, and a successful decode yields the
texture result — every input combination returns, none propagates. -/
theorem processTexture_never_throws (e : String) (img : PvrImageData)
    (ctx : Option Unit) (entryName texturePath : String) (index : Nat) :
    processTextureEntry (Except.error e) ctx entryName = none ∧
    processPvrFile (Except.error e) ctx texturePath index = none ∧
    processTextureEntry (Except.ok img) none entryName = none ∧
    processPvrFile (Except.ok img) none texturePath index = none ∧
    processTextureEntry (Except.ok img) (some ()) entryName =
      some ⟨entryName, img.width, img.height⟩ ∧
    processPvrFile (Except.ok img) (some ()) texturePath index =
      some (⟨(texturePath.splitOn "/").getLast?.getD "", img.width, img.height⟩, index) :=
  ⟨rfl, rfl, rfl, rfl, rfl, rfl⟩
